import Mathlib

/-!
Verification of the `gdg` ("Go DZI Generator") pyramid-planning and
tile-extraction engine (src/gdg.go) against its natural-language
specification.

Modelling conventions:
* Go `uint` (64-bit) values are modelled as `Nat`; the wrapping arithmetic
  Go performs on `uint` is made explicit through `uadd`, `usub`, `umul`
  (all reduced modulo `2^64`), and the Go conversion `int(u)` of a `uint`
  to a signed 64-bit `int` is modelled by `uintToInt` (two's-complement
  reinterpretation).
* The float64 expressions `math.Ceil(math.Log2 ...)` and
  `math.Ceil(a / b)` in `GetMaxLevel`, `GetLevelGrids` and the
  per-level halving are modelled by their exact integer values
  (`clog2`, ceiling division `(a + b - 1) / b`, `(n + 1) / 2`): over the
  dimension ranges considered (and for positive tile size) the float64
  computation is exact.
* External collaborators (`imaging.Crop`, `imaging.Thumbnail`,
  `jpeg.Encode`, `png.Encode`, the `Saver` sink) are parameters of the
  model, exactly as the spec declares them out of scope.
* Goroutine results: `SaveTile` is launched with `go` and its returned
  error is discarded by `Generate`.  The model records every submitted
  tile together with the result its `SaveTile` call produces, and
  separately the value `Generate` itself returns, so the relationship
  between per-tile failures and `Generate`'s result is visible.
* Go's mutation of `*Option` through the pointer in `Generate`
  (lines 129-130 assign `opt.Width`, `opt.Height`) is modelled by
  returning the final value of the `Opt` record.
-/

namespace gdg

/-- 2^64, the modulus of Go `uint` arithmetic. -/
def U64 : Nat := 2 ^ 64

/-- 2^63, the boundary between nonnegative and negative `int` values. -/
def I63 : Nat := 2 ^ 63

/-- Go `uint` addition: wraps modulo 2^64. -/
def uadd (a b : Nat) : Nat := (a + b) % U64

/-- Go `uint` multiplication: wraps modulo 2^64. -/
def umul (a b : Nat) : Nat := (a * b) % U64

/-- Go `uint` subtraction: wraps modulo 2^64. -/
def usub (a b : Nat) : Nat := (U64 + a % U64 - b % U64) % U64

/-- Go conversion `int(u)` of a `uint` value: two's-complement
reinterpretation of the low 64 bits as a signed 64-bit integer. -/
def uintToInt (x : Nat) : Int :=
  if x % U64 < I63 then ((x % U64 : Nat) : Int) else ((x % U64 : Nat) : Int) - (U64 : Int)

/-- A point, as in Go `image.Point` (fields are Go `int`). -/
structure Pt where
  x : Int
  y : Int
deriving DecidableEq

/-- A rectangle, as in Go `image.Rectangle`. -/
structure Rect where
  min : Pt
  max : Pt
deriving DecidableEq

/-- Go constant `JPEG ImageFormat = "jpeg"` (`ImageFormat` is a string type). -/
def JPEG : String := "jpeg"

/-- Go constant `PNG ImageFormat = "png"`. -/
def PNG : String := "png"

/-- The Go `Option` struct (DZI options).  The `Saver` interface value is
modelled as a separate function parameter of `SaveTile`/`Generate`
(it is a function-typed collaborator; `Generate` passes it through
unchanged and never reassigns it). -/
structure Opt where
  DirPath : String
  Format : String
  Overlap : Nat
  TileSize : Nat
  Width : Nat
  Height : Nat
deriving DecidableEq

/-- Fuel-indexed ceiling base-2 logarithm; structurally recursive so that
it evaluates inside the kernel. -/
def clog2Aux : Nat → Nat → Nat
  | 0, _ => 0
  | fuel + 1, n => if n ≤ 1 then 0 else clog2Aux fuel ((n + 1) / 2) + 1

/-- Exact value of `ceil(log2 n)` for `n ≥ 1` (and `0` for `n = 0`). -/
def clog2 (n : Nat) : Nat := clog2Aux n n

/-- Go `GetMaxLevel(width, height uint) uint`, line 41:
`uint(math.Ceil(math.Log2(math.Max(float64(width), float64(height)))))`,
modelled by the exact ceiling log2 of `max width height`. -/
def GetMaxLevel (width height : Nat) : Nat := clog2 (max width height)

/-- Go `GetLevelGrids(level, width, height, tileSize uint) (uint, uint)`,
line 47: `(uint(math.Ceil(float64(width)/float64(tileSize))), ...)`,
modelled by exact ceiling division (exact for `tileSize ≥ 1`).
The `level` argument is unused, exactly as in the source. -/
def GetLevelGrids (level width height tileSize : Nat) : Nat × Nat :=
  ((width + tileSize - 1) / tileSize, (height + tileSize - 1) / tileSize)

/-- Go `ComputeTileRect(opt *Option, col, row, maxCol, maxRow uint)`,
lines 54-78.  The zero value of `image.Rectangle` leaves unassigned
fields at 0; `col*opt.TileSize - opt.Overlap` and `maxCol - 1` are
wrapping `uint` operations; every assignment into the `int`-typed
rectangle fields goes through the `uint`-to-`int` conversion. -/
def ComputeTileRect (opt : Opt) (col row maxCol maxRow : Nat) : Rect :=
  let minX : Int :=
    if col = 0 then 0 else uintToInt (usub (umul col opt.TileSize) opt.Overlap)
  let maxX : Int :=
    if col = 0 then uintToInt (uadd opt.TileSize opt.Overlap)
    else if col = usub maxCol 1 then uintToInt opt.Width
    else uintToInt (uadd (umul (uadd col 1) opt.TileSize) opt.Overlap)
  let minY : Int :=
    if row = 0 then 0 else uintToInt (usub (umul row opt.TileSize) opt.Overlap)
  let maxY : Int :=
    if row = 0 then uintToInt (uadd opt.TileSize opt.Overlap)
    else if row = usub maxRow 1 then uintToInt opt.Height
    else uintToInt (uadd (umul (uadd row 1) opt.TileSize) opt.Overlap)
  { min := { x := minX, y := minY }, max := { x := maxX, y := maxY } }

/-- The tile path built by `SaveTile` (line 86):
`fmt.Sprintf("%s/%d/%d_%d.%s", dirPath, level, col, row, format)`. -/
def tilePath (dirPath : String) (level col row : Nat) (format : String) : String :=
  dirPath ++ "/" ++ toString level ++ "/" ++ toString col ++ "_" ++ toString row ++ "." ++ format

/-- Go `SaveTile` (lines 81-105), with the codec and the sink as
parameters.  Encoded bytes are abstracted as `List Nat`.  Note the
source's `switch`: a format that is neither `jpeg` nor `png` matches no
case, leaves `err` nil and the buffer empty, and proceeds to the save;
the model reproduces this.  The returned `Option String` is the Go
`error` (`none` = nil). -/
def SaveTile {Img : Type} (dirPath : String) (saver : String → List Nat → Option String)
    (level col row : Nat) (format : String) (m : Img)
    (encodeJpeg encodePng : Img → Except String (List Nat)) : Option String :=
  let imgPath := tilePath dirPath level col row format
  let buffer : Except String (List Nat) :=
    if format = JPEG then encodeJpeg m
    else if format = PNG then encodePng m
    else Except.ok []
  match buffer with
  | Except.error e => some e
  | Except.ok data => saver imgPath data

/-- One submitted tile task: its identity `(level, col, row)`, the
rectangle `Generate` computed for it, and the result its `SaveTile`
goroutine produces (which `Generate` discards). -/
structure TileRec where
  level : Nat
  col : Nat
  row : Nat
  rect : Rect
  result : Option String
deriving DecidableEq

/-- The tile tasks submitted for one level by the nested
`for col ... for row ...` loops of `Generate` (lines 118-127), in
submission order (`col` outer, `row` inner). -/
def levelTiles {Img : Type} (opt : Opt) (saver : String → List Nat → Option String)
    (encodeJpeg encodePng : Img → Except String (List Nat)) (crop : Img → Rect → Img)
    (tm : Img) (level cols rows : Nat) : List TileRec :=
  (List.range cols).flatMap (fun col =>
    (List.range rows).map (fun row =>
      let rect := ComputeTileRect opt col row cols rows
      { level := level, col := col, row := row, rect := rect,
        result := SaveTile opt.DirPath saver level col row opt.Format (crop tm rect)
          encodeJpeg encodePng }))

/-- The body of `Generate`'s level loop (lines 115-136).  The Go loop
condition `level >= 0` is vacuous for `uint`; the loop exits through the
explicit `if level == 0 break`, which this structural recursion mirrors.
Each iteration submits the level's grid using the current `width`/
`height`, then overwrites them with the ceiling halves (lines 129-130)
and downsamples before testing for the break.  Returns the submitted
tiles plus the final `(width, height)` the loop wrote into `opt`. -/
def generateLoop {Img : Type} (opt : Opt) (saver : String → List Nat → Option String)
    (encodeJpeg encodePng : Img → Except String (List Nat)) (crop : Img → Rect → Img)
    (thumbnail : Img → Int → Int → Img) :
    Nat → Nat → Nat → Img → List TileRec × Nat × Nat
  | level, width, height, tm =>
    let cr := GetLevelGrids level width height opt.TileSize
    let recs := levelTiles { opt with Width := width, Height := height } saver
      encodeJpeg encodePng crop tm level cr.1 cr.2
    let width' := (width + 1) / 2
    let height' := (height + 1) / 2
    let tm' := thumbnail tm (uintToInt width') (uintToInt height')
    match level with
    | 0 => (recs, width', height')
    | l + 1 =>
      let rest := generateLoop opt saver encodeJpeg encodePng crop thumbnail l width' height' tm'
      (recs ++ rest.1, rest.2.1, rest.2.2)

/-- The observable outcome of `Generate`: the final value of the `Opt`
record (Go mutates it through the pointer), the submitted tile tasks
with their individual results, and the error `Generate` returns. -/
structure GenResult where
  opt : Opt
  log : List TileRec
  err : Option String
deriving DecidableEq

/-- Go `Generate(m *image.NRGBA, opt *Option) error` (lines 109-140).
It computes the max level, walks the levels, waits on the `WaitGroup`
and returns `nil` unconditionally (line 139); the per-goroutine
`SaveTile` results are discarded. -/
def Generate {Img : Type} (m : Img) (opt : Opt) (saver : String → List Nat → Option String)
    (encodeJpeg encodePng : Img → Except String (List Nat)) (crop : Img → Rect → Img)
    (thumbnail : Img → Int → Int → Img) : GenResult :=
  let level := GetMaxLevel opt.Width opt.Height
  let out := generateLoop opt saver encodeJpeg encodePng crop thumbnail
    level opt.Width opt.Height m
  { opt := { opt with Width := out.2.1, Height := out.2.2 },
    log := out.1,
    err := none }

/-- The per-level downsample step of `Generate` (lines 129-130):
`opt.Width = uint(math.Ceil(float64(opt.Width) / 2))`. -/
def ceilHalf (n : Nat) : Nat := (n + 1) / 2

/-- The number of tiles `GetLevelGrids` plans for one level. -/
def gridCount (level width height tileSize : Nat) : Nat :=
  (GetLevelGrids level width height tileSize).1 * (GetLevelGrids level width height tileSize).2

/-- Spec-side notion for claim C3: the core region of a tile rectangle,
obtained by trimming from each edge exactly the overlap the
implementation added there (`ComputeTileRect` adds `overlap` on the
left iff `col ≠ 0`, and on the right except in the `col ≠ 0 ∧
col = maxCol - 1` branch where it writes `width` instead; symmetrically
vertically). -/
def coreRect (r : Rect) (col row maxCol maxRow overlap : Nat) : Rect :=
  { min := { x := r.min.x + (if col = 0 then 0 else (overlap : Int)),
             y := r.min.y + (if row = 0 then 0 else (overlap : Int)) },
    max := { x := r.max.x - (if col ≠ 0 ∧ col = maxCol - 1 then 0 else (overlap : Int)),
             y := r.max.y - (if row ≠ 0 ∧ row = maxRow - 1 then 0 else (overlap : Int)) } }

/-- Membership of an integer pixel in a rectangle (half-open on the
right/bottom, as Go `image.Rectangle` semantics). -/
def memRect (r : Rect) (x y : Int) : Prop :=
  r.min.x ≤ x ∧ x < r.max.x ∧ r.min.y ≤ y ∧ y < r.max.y

instance (r : Rect) (x y : Int) : Decidable (memRect r x y) := by
  unfold memRect; infer_instance

/-- Area of a rectangle, in ℤ. -/
def area (r : Rect) : Int := (r.max.x - r.min.x) * (r.max.y - r.min.y)

/-! ### Test fixtures (concrete collaborators used to evaluate the model) -/

/-- Canvas narrower than one tile: width=200, tileSize=256, overlap=1. -/
def optNarrow : Opt :=
  { DirPath := "out", Format := "png", Overlap := 1, TileSize := 256, Width := 200, Height := 200 }

/-- A 1x1 image with unit tiles, png format. -/
def optUnit : Opt :=
  { DirPath := "out", Format := "png", Overlap := 0, TileSize := 1, Width := 1, Height := 1 }

/-- A 1x1 image with unit tiles and an unrecognized format. -/
def optBadFormat : Opt :=
  { DirPath := "out", Format := "bmp", Overlap := 0, TileSize := 1, Width := 1, Height := 1 }

/-- A 2x2 image with unit tiles, png format. -/
def optTwo : Opt :=
  { DirPath := "out", Format := "png", Overlap := 0, TileSize := 1, Width := 2, Height := 2 }

/-- Overlap exceeding tileSize: tileSize=256, overlap=257. -/
def optWrap : Opt :=
  { DirPath := "out", Format := "png", Overlap := 257, TileSize := 256, Width := 1000, Height := 1000 }

/-- A sink that fails every store call. -/
def failSaver : String → List Nat → Option String := fun _ _ => some "store failed"

/-- A sink that accepts every store call. -/
def okSaver : String → List Nat → Option String := fun _ _ => none

/-- A codec that encodes every (trivial) image successfully. -/
def okEncode : Unit → Except String (List Nat) := fun _ => Except.ok [0]

/-- The crop collaborator on the trivial image type. -/
def unitCrop : Unit → Rect → Unit := fun _ _ => ()

/-- The resize collaborator on the trivial image type. -/
def unitThumb : Unit → Int → Int → Unit := fun _ _ _ => ()

/-! ### Helper lemmas -/

theorem clog2Aux_eq_clog (fuel : Nat) : ∀ n : Nat, n ≤ fuel → clog2Aux fuel n = Nat.clog 2 n := by
  induction fuel with
  | zero =>
    intro n hn
    interval_cases n
    simp [clog2Aux]
  | succ fuel ih =>
    intro n hn
    by_cases h1 : n ≤ 1
    · simp [clog2Aux, h1, Nat.clog_of_right_le_one h1]
    · have h2 : 2 ≤ n := by omega
      rw [clog2Aux, if_neg h1, Nat.clog_of_two_le (by norm_num) h2]
      have : (n + 2 - 1) / 2 = (n + 1) / 2 := by omega
      rw [this, ih _ (by omega)]

theorem clog2_eq_clog (n : Nat) : clog2 n = Nat.clog 2 n :=
  clog2Aux_eq_clog n n le_rfl

/-- The ceiling-division value `(w + t - 1) / t` computed by
`GetLevelGrids` is characterized as the least count of `t`-sized cells
covering `w`. -/
theorem ceilDiv_spec (w t : Nat) (hw : 1 ≤ w) (ht : 1 ≤ t) :
    w ≤ ((w + t - 1) / t) * t ∧ (((w + t - 1) / t) - 1) * t < w ∧ 1 ≤ (w + t - 1) / t := by
  have hdm := Nat.div_add_mod (w + t - 1) t
  have hmlt : (w + t - 1) % t < t := Nat.mod_lt _ ht
  revert hdm hmlt
  generalize (w + t - 1) / t = q
  generalize (w + t - 1) % t = r
  intro hdm hmlt
  have hq1 : 1 ≤ q := by
    rcases Nat.eq_zero_or_pos q with h0 | h1
    · subst h0; rw [Nat.mul_zero] at hdm; omega
    · exact h1
  refine ⟨?_, ?_, hq1⟩
  · rw [Nat.mul_comm]
    omega
  · rcases Nat.exists_eq_add_of_le hq1 with ⟨q', hq'⟩
    subst hq'
    have hexp : (1 + q' - 1) * t = t * q' := by rw [Nat.mul_comm]; congr 1; omega
    rw [hexp]
    have hsp : t * (1 + q') = t + t * q' := by ring
    rw [hsp] at hdm
    omega

/-- Halving by `ceilHalf` reaches the fixed point 1 after `clog2 n`
steps. -/
theorem ceilHalf_iter_clog (n : Nat) (hn : 1 ≤ n) : ceilHalf^[Nat.clog 2 n] n = 1 := by
  induction n using Nat.strong_induction_on with
  | _ n ih =>
    by_cases h1 : n ≤ 1
    · have : n = 1 := by omega
      subst this
      rw [Nat.clog_of_right_le_one le_rfl]
      rfl
    · have h2 : 2 ≤ n := by omega
      rw [Nat.clog_of_two_le (by norm_num) h2]
      rw [Function.iterate_succ_apply]
      have heq : (n + 2 - 1) / 2 = ceilHalf n := by simp only [ceilHalf]; omega
      rw [heq]
      exact ih (ceilHalf n) (by simp only [ceilHalf]; omega) (by simp only [ceilHalf]; omega)

/-- Once at least `clog2 n` halvings are performed, the result is 1. -/
theorem ceilHalf_iter_eq_one (n k : Nat) (hn : 1 ≤ n) (hk : Nat.clog 2 n ≤ k) :
    ceilHalf^[k] n = 1 := by
  obtain ⟨d, hd⟩ := Nat.exists_eq_add_of_le hk
  subst hd
  rw [Nat.add_comm, Function.iterate_add_apply, ceilHalf_iter_clog n hn]
  exact Function.iterate_fixed rfl d

/-- `ceilHalf` keeps dimensions positive. -/
theorem one_le_ceilHalf_iter (n k : Nat) (hn : 1 ≤ n) : 1 ≤ ceilHalf^[k] n := by
  induction k generalizing n with
  | zero => exact hn
  | succ k ih =>
    rw [Function.iterate_succ_apply]
    exact ih _ (by simp only [ceilHalf]; omega)

/-- The final width and height written back into the option record by
the level loop: one more ceiling halving than the loop depth. -/
theorem generateLoop_final_dims {Img : Type} (opt : Opt)
    (saver : String → List Nat → Option String)
    (encodeJpeg encodePng : Img → Except String (List Nat)) (crop : Img → Rect → Img)
    (thumbnail : Img → Int → Int → Img) :
    ∀ (level w h : Nat) (tm : Img),
      (generateLoop opt saver encodeJpeg encodePng crop thumbnail level w h tm).2.1
          = ceilHalf^[level + 1] w ∧
      (generateLoop opt saver encodeJpeg encodePng crop thumbnail level w h tm).2.2
          = ceilHalf^[level + 1] h := by
  intro level
  induction level with
  | zero =>
    intro w h tm
    simp [generateLoop, ceilHalf]
  | succ l ih =>
    intro w h tm
    rw [generateLoop]
    simp only []
    refine ⟨?_, ?_⟩
    · rw [(ih _ _ _).1]
      rw [show l + 1 + 1 = (l + 1) + 1 from rfl, Function.iterate_succ_apply]
      rfl
    · rw [(ih _ _ _).2]
      rw [Function.iterate_succ_apply]
      rfl

/-- Every record submitted by `levelTiles` carries the submitting level. -/
theorem levelTiles_level {Img : Type} (opt : Opt) (saver : String → List Nat → Option String)
    (encodeJpeg encodePng : Img → Except String (List Nat)) (crop : Img → Rect → Img)
    (tm : Img) (level cols rows : Nat) (rec : TileRec)
    (h : rec ∈ levelTiles opt saver encodeJpeg encodePng crop tm level cols rows) :
    rec.level = level := by
  simp only [levelTiles, List.mem_flatMap, List.mem_map, List.mem_range] at h
  obtain ⟨c, -, r, -, rfl⟩ := h
  rfl

/-- `levelTiles` submits exactly `cols * rows` tile tasks. -/
theorem levelTiles_length {Img : Type} (opt : Opt) (saver : String → List Nat → Option String)
    (encodeJpeg encodePng : Img → Except String (List Nat)) (crop : Img → Rect → Img)
    (tm : Img) (level cols rows : Nat) :
    (levelTiles opt saver encodeJpeg encodePng crop tm level cols rows).length = cols * rows := by
  simp [levelTiles, List.flatMap, Function.comp_def, List.map_const', List.sum_const_nat]

/-- Count of the records `levelTiles` contributes to a given level. -/
theorem levelTiles_countP {Img : Type} (opt : Opt) (saver : String → List Nat → Option String)
    (encodeJpeg encodePng : Img → Except String (List Nat)) (crop : Img → Rect → Img)
    (tm : Img) (level cols rows l : Nat) :
    (levelTiles opt saver encodeJpeg encodePng crop tm level cols rows).countP
        (fun rec => rec.level == l) =
      if l = level then cols * rows else 0 := by
  by_cases h : l = level
  · subst h
    rw [if_pos rfl, ← levelTiles_length opt saver encodeJpeg encodePng crop tm l cols rows]
    rw [List.countP_eq_length]
    intro a ha
    simp [levelTiles_level opt saver encodeJpeg encodePng crop tm l cols rows a ha]
  · rw [if_neg h, List.countP_eq_zero]
    intro a ha
    have := levelTiles_level opt saver encodeJpeg encodePng crop tm level cols rows a ha
    simp [this]
    omega

/-- Per-level tile counts of the whole loop: level `l` receives exactly
the grid planned from the `level - l` times halved dimensions if
`l ≤ level`, and nothing otherwise. -/
theorem generateLoop_countP {Img : Type} (opt : Opt)
    (saver : String → List Nat → Option String)
    (encodeJpeg encodePng : Img → Except String (List Nat)) (crop : Img → Rect → Img)
    (thumbnail : Img → Int → Int → Img) (l : Nat) :
    ∀ (level w h : Nat) (tm : Img),
      ((generateLoop opt saver encodeJpeg encodePng crop thumbnail level w h tm).1.countP
        (fun rec => rec.level == l)) =
      if l ≤ level then
        gridCount l (ceilHalf^[level - l] w) (ceilHalf^[level - l] h) opt.TileSize
      else 0 := by
  intro level
  induction level with
  | zero =>
    intro w h tm
    rw [generateLoop]
    simp only []
    rw [levelTiles_countP]
    by_cases h0 : l = 0
    · subst h0
      simp [gridCount, GetLevelGrids]
    · rw [if_neg h0, if_neg (by omega)]
  | succ lv ih =>
    intro w h tm
    rw [generateLoop]
    simp only [List.countP_append]
    rw [levelTiles_countP, ih]
    rcases Nat.lt_trichotomy l (lv + 1) with hlt | heq | hgt
    · have hle : l ≤ lv := by omega
      rw [if_neg (by omega), if_pos hle, if_pos (by omega), Nat.zero_add]
      have hstep : lv + 1 - l = (lv - l) + 1 := by omega
      rw [hstep, Function.iterate_succ_apply]
      rfl
    · subst heq
      rw [if_pos rfl, if_neg (by omega), if_pos le_rfl, Nat.sub_self]
      simp [gridCount, GetLevelGrids]
    · rw [if_neg (by omega), if_neg (by omega), if_neg (by omega)]

/-- `uintToInt` is the identity below 2^63. -/
theorem uintToInt_of_lt (v : Nat) (h : v < I63) : uintToInt v = (v : Int) := by
  have hU : U64 = 18446744073709551616 := by norm_num [U64]
  have hI : I63 = 9223372036854775808 := by norm_num [I63]
  rw [hI] at h
  rw [uintToInt, hU, hI]
  rw [Nat.mod_eq_of_lt (by omega), if_pos (by omega)]

/-- `uadd` is plain addition below 2^64. -/
theorem uadd_of_lt (a b : Nat) (h : a + b < U64) : uadd a b = a + b := by
  rw [uadd]; exact Nat.mod_eq_of_lt h

/-- `umul` is plain multiplication below 2^64. -/
theorem umul_of_lt (a b : Nat) (h : a * b < U64) : umul a b = a * b := by
  rw [umul]; exact Nat.mod_eq_of_lt h

/-- `usub` is plain subtraction when it does not underflow. -/
theorem usub_of_le (a b : Nat) (hba : b ≤ a) (ha : a < U64) : usub a b = a - b := by
  have hU : U64 = 18446744073709551616 := by norm_num [U64]
  rw [usub, hU]
  rw [hU] at ha
  omega

/-- Division bracket: `x/T` names the unique `T`-cell containing `x`. -/
theorem div_bounds (x T : Nat) (ht : 1 ≤ T) : (x / T) * T ≤ x ∧ x < (x / T + 1) * T := by
  have hdm := Nat.div_add_mod x T
  have hm : x % T < T := Nat.mod_lt _ (by omega)
  revert hdm hm
  generalize x / T = q
  generalize x % T = m
  intro hdm hm
  constructor
  · calc q * T = T * q := Nat.mul_comm _ _
      _ ≤ T * q + m := Nat.le_add_right _ _
      _ = x := hdm
  · calc x = T * q + m := hdm.symm
      _ < T * q + T := Nat.add_lt_add_left hm _
      _ = (q + 1) * T := by ring

/-- The left core edge of a tile column evaluates to `c * T`:
`ComputeTileRect` puts the left rectangle edge at `0` (first column) or
`c*T - o`, and `coreRect` adds back the overlap trimmed on non-first
columns. -/
theorem core_min_edge (T o w c cols : Nat) (ho : o < T) (hTw : T ≤ w) (hwB : w ≤ 2 ^ 60)
    (hcols : cols = (w + T - 1) / T) (hc : c < cols) :
    (if c = 0 then (0 : Int) else uintToInt (usub (umul c T) o)) +
      (if c = 0 then 0 else (o : Int)) = ((c * T : Nat) : Int) := by
  have h60 : (2 : Nat) ^ 60 = 1152921504606846976 := by norm_num
  have hU : U64 = 18446744073709551616 := by norm_num [U64]
  have hI : I63 = 9223372036854775808 := by norm_num [I63]
  by_cases hc0 : c = 0
  · subst hc0; simp
  · rw [if_neg hc0, if_neg hc0]
    have ht : 1 ≤ T := by omega
    have hw1 : 1 ≤ w := by omega
    obtain ⟨hcole, hcoll, hcols1⟩ := ceilDiv_spec w T hw1 ht
    rw [← hcols] at hcole hcoll hcols1
    have hcT_lt_w : c * T < w := by
      calc c * T ≤ (cols - 1) * T := Nat.mul_le_mul_right T (by omega)
        _ < w := hcoll
    have hTcT : T ≤ c * T := by
      have := Nat.mul_le_mul_right T (show 1 ≤ c by omega)
      rwa [Nat.one_mul] at this
    rw [umul_of_lt c T (by omega), usub_of_le _ _ (by omega) (by omega),
      uintToInt_of_lt _ (by omega)]
    have hocT : o ≤ c * T := by omega
    push_cast [Nat.cast_sub hocT]
    ring

/-- The right core edge of a tile column evaluates to
`min ((c+1)*T) w`: `ComputeTileRect` writes `T+o` (first column), `w`
(last, non-first column) or `(c+1)*T + o`, and `coreRect` removes the
overlap except in the last-column branch that wrote `w`. -/
theorem core_max_edge (T o w c cols : Nat) (ho : o < T) (hTw : T ≤ w) (hwB : w ≤ 2 ^ 60)
    (hcols : cols = (w + T - 1) / T) (hc : c < cols) :
    (if c = 0 then uintToInt (uadd T o)
      else if c = usub cols 1 then uintToInt w
      else uintToInt (uadd (umul (uadd c 1) T) o)) -
      (if c ≠ 0 ∧ c = cols - 1 then 0 else (o : Int)) = ((min ((c + 1) * T) w : Nat) : Int) := by
  have h60 : (2 : Nat) ^ 60 = 1152921504606846976 := by norm_num
  have hU : U64 = 18446744073709551616 := by norm_num [U64]
  have hI : I63 = 9223372036854775808 := by norm_num [I63]
  have ht : 1 ≤ T := by omega
  have hw1 : 1 ≤ w := by omega
  obtain ⟨hcole, hcoll, hcols1⟩ := ceilDiv_spec w T hw1 ht
  rw [← hcols] at hcole hcoll hcols1
  have hcolsb : cols ≤ w + T - 1 := hcols ▸ Nat.div_le_self _ _
  have husubc : usub cols 1 = cols - 1 := usub_of_le cols 1 (by omega) (by omega)
  by_cases hc0 : c = 0
  · subst hc0
    rw [if_pos rfl, if_neg (by simp)]
    rw [uadd_of_lt T o (by omega), uintToInt_of_lt _ (by omega)]
    have hmin : min ((0 + 1) * T) w = T := by
      rw [Nat.zero_add, Nat.one_mul]
      exact min_eq_left hTw
    rw [hmin]
    push_cast
    ring
  · rw [if_neg hc0, husubc]
    by_cases hlast : c = cols - 1
    · rw [if_pos hlast, if_pos ⟨hc0, hlast⟩, sub_zero, uintToInt_of_lt _ (by omega)]
      have hc1 : c + 1 = cols := by omega
      have hmin : min ((c + 1) * T) w = w := by
        rw [hc1]
        exact min_eq_right hcole
      rw [hmin]
    · rw [if_neg hlast, if_neg (by simp [hlast])]
      have hc1 : c + 1 ≤ cols - 1 := by omega
      have hlt : (c + 1) * T < w := by
        calc (c + 1) * T ≤ (cols - 1) * T := Nat.mul_le_mul_right T hc1
          _ < w := hcoll
      rw [uadd_of_lt c 1 (by omega), umul_of_lt (c + 1) T (by omega),
        uadd_of_lt _ o (by omega), uintToInt_of_lt _ (by omega)]
      have hmin : min ((c + 1) * T) w = (c + 1) * T := min_eq_left (by omega)
      rw [hmin]
      push_cast
      ring

/-- Under the amended hypotheses, the core region of tile `(c, r)` is
exactly the cell `[c*T, min((c+1)*T, w)) x [r*T, min((r+1)*T, h))`. -/
theorem core_eval (opt : Opt) (lvl c r cols rows : Nat)
    (ho : opt.Overlap < opt.TileSize) (hTW : opt.TileSize ≤ opt.Width)
    (hTH : opt.TileSize ≤ opt.Height)
    (hWb : opt.Width ≤ 2 ^ 60) (hHb : opt.Height ≤ 2 ^ 60)
    (hcols : cols = (GetLevelGrids lvl opt.Width opt.Height opt.TileSize).1)
    (hrows : rows = (GetLevelGrids lvl opt.Width opt.Height opt.TileSize).2)
    (hc : c < cols) (hr : r < rows) :
    coreRect (ComputeTileRect opt c r cols rows) c r cols rows opt.Overlap =
      { min := { x := ((c * opt.TileSize : Nat) : Int), y := ((r * opt.TileSize : Nat) : Int) },
        max := { x := ((min ((c + 1) * opt.TileSize) opt.Width : Nat) : Int),
                 y := ((min ((r + 1) * opt.TileSize) opt.Height : Nat) : Int) } } := by
  have hcols' : cols = (opt.Width + opt.TileSize - 1) / opt.TileSize := hcols
  have hrows' : rows = (opt.Height + opt.TileSize - 1) / opt.TileSize := hrows
  simp only [coreRect, ComputeTileRect, Rect.mk.injEq, Pt.mk.injEq]
  refine ⟨⟨?_, ?_⟩, ?_, ?_⟩
  · exact core_min_edge opt.TileSize opt.Overlap opt.Width c cols ho hTW hWb hcols' hc
  · exact core_min_edge opt.TileSize opt.Overlap opt.Height r rows ho hTH hHb hrows' hr
  · exact core_max_edge opt.TileSize opt.Overlap opt.Width c cols ho hTW hWb hcols' hc
  · exact core_max_edge opt.TileSize opt.Overlap opt.Height r rows ho hTH hHb hrows' hr

/-- Each pixel coordinate `x < w` lies in the core interval of exactly
one column, namely `x / T`. -/
theorem core_unique_1d (T w : Nat) (ht : 1 ≤ T) (hw : 1 ≤ w) (x : Nat) (hx : x < w) :
    ∃! c : Nat, c < (w + T - 1) / T ∧ c * T ≤ x ∧ x < min ((c + 1) * T) w := by
  obtain ⟨hcole, hcoll, hcols1⟩ := ceilDiv_spec w T hw ht
  obtain ⟨hd1, hd2⟩ := div_bounds x T ht
  refine ⟨x / T, ⟨?_, hd1, lt_min hd2 hx⟩, ?_⟩
  · rw [Nat.div_lt_iff_lt_mul (by omega)]
    exact Nat.lt_of_lt_of_le hx hcole
  · rintro c' ⟨-, hlo, hhi⟩
    have hhi' : x < (c' + 1) * T := lt_of_lt_of_le hhi (min_le_left _ _)
    exact (Nat.div_eq_of_lt_le hlo hhi').symm

/-! ### Claim theorems -/

/-- C1: the claim states that `ComputeTileRect` clamps all four edges to
the canvas, and that for width=200, tileSize=256, overlap=1, maxCol=1 the
right edge equals 200.  The code does not clamp the `col == 0` branch:
at that very input the returned right edge is `tileSize + overlap = 257`,
exceeding the 200-pixel canvas (the "known boundary defect" the spec
flags in its Geometry section). -/
theorem C1_right_edge_unclamped :
    (ComputeTileRect optNarrow 0 0 1 1).max.x = 257 ∧
    (ComputeTileRect optNarrow 0 0 1 1).max.x ≠ 200 ∧
    ¬ (ComputeTileRect optNarrow 0 0 1 1).max.x ≤ (optNarrow.Width : Int) := by
  refine ⟨by decide, by decide, by decide⟩

/-- C2: the claim states that if any tile task fails, `Generate` returns
a non-nil aggregated error.  In the code every `SaveTile` goroutine's
returned error is discarded (`go SaveTile(...)`) and `Generate` returns
`nil` unconditionally after `wg.Wait()`: with a sink that fails the only
submitted tile, the tile task's result is an error, yet `Generate`
returns nil. -/
theorem C2_generate_drops_tile_errors :
    (Generate () optUnit failSaver okEncode okEncode unitCrop unitThumb).log.map
      (fun r => r.result) = [some "store failed"] ∧
    (Generate () optUnit failSaver okEncode okEncode unitCrop unitThumb).err = none := by
  refine ⟨by decide, by decide⟩

/-- C7: the claim states that an invalid configuration (e.g. a format
that is neither jpeg nor png) makes `Generate` fail with a configuration
error before any work starts, with no tile task submitted and no store
call made.  The code performs no validation at all: with format "bmp" it
submits a tile task, `SaveTile`'s switch matches no case leaving the
error nil and the buffer empty, the store call is made (and here
succeeds), and `Generate` returns nil. -/
theorem C7_generate_no_config_validation :
    (Generate () optBadFormat okSaver okEncode okEncode unitCrop unitThumb).log.length = 1 ∧
    (Generate () optBadFormat okSaver okEncode okEncode unitCrop unitThumb).log.map
      (fun r => r.result) = [none] ∧
    (Generate () optBadFormat okSaver okEncode okEncode unitCrop unitThumb).err = none := by
  refine ⟨by decide, by decide, by decide⟩

/-- C10: for `col ≥ 1` the left edge stored by `ComputeTileRect` comes
from the wrapping unsigned subtraction `col*tileSize - overlap` taken
modulo 2^64: the unsigned value equals the intended nonnegative
`col*tileSize - overlap` exactly when `overlap ≤ col*tileSize`, and when
`overlap` exceeds `col*tileSize` (by at most 2^63) it wraps around to a
huge value of at least 2^63. -/
theorem C10_left_edge_unsigned_subtraction (opt : Opt) (col row maxCol maxRow : Nat)
    (hcol : col ≠ 0) (ho : opt.Overlap < U64) (hcT : col * opt.TileSize < U64) :
    ((ComputeTileRect opt col row maxCol maxRow).min.x
        = uintToInt (usub (umul col opt.TileSize) opt.Overlap)) ∧
    (((usub (umul col opt.TileSize) opt.Overlap : Nat) : Int)
        = (col * opt.TileSize : Int) - (opt.Overlap : Int) ↔ opt.Overlap ≤ col * opt.TileSize) ∧
    (col * opt.TileSize < opt.Overlap → opt.Overlap - col * opt.TileSize ≤ I63 →
      I63 ≤ usub (umul col opt.TileSize) opt.Overlap) := by
  have hU : U64 = 18446744073709551616 := by norm_num [U64]
  have hI : I63 = 9223372036854775808 := by norm_num [I63]
  rw [hU] at ho hcT
  have hcast : (col : Int) * (opt.TileSize : Int) = ((col * opt.TileSize : Nat) : Int) := by
    push_cast; ring
  refine ⟨by simp [ComputeTileRect, hcol], ?_, ?_⟩
  · rw [usub, umul, hU, hcast]
    generalize col * opt.TileSize = k at ho hcT ⊢
    omega
  · intro hlt hle
    rw [hI] at hle
    rw [usub, umul, hU, hI]
    generalize col * opt.TileSize = k at hlt hle hcT ⊢
    omega

/-- Witness for C10 at the concrete wrap input tileSize=256, overlap=257,
col=1: the stored left edge is determined by the unsigned subtraction,
and the unsigned value has wrapped to at least 2^63. -/
theorem C10_left_edge_unsigned_subtraction_witness :
    ((ComputeTileRect optWrap 1 1 3 3).min.x
        = uintToInt (usub (umul 1 optWrap.TileSize) optWrap.Overlap)) ∧
    I63 ≤ usub (umul 1 optWrap.TileSize) optWrap.Overlap :=
  ⟨(C10_left_edge_unsigned_subtraction optWrap 1 1 3 3 (by decide)
      (by norm_num [optWrap, U64]) (by norm_num [optWrap, U64])).1,
   (C10_left_edge_unsigned_subtraction optWrap 1 1 3 3 (by decide)
      (by norm_num [optWrap, U64]) (by norm_num [optWrap, U64])).2.2
      (by norm_num [optWrap]) (by norm_num [optWrap, I63])⟩

/-- C5: `GetMaxLevel width height` equals `ceil(log2(max(width,
height)))` for all positive dimensions — characterized as the least `L`
with `max width height ≤ 2^L` — and takes the values 8, 9, 0 at
(256,256), (257,256), (1,1) respectively. -/
theorem C5_get_max_level_ceil_log2 :
    (∀ w h : Nat, 1 ≤ w → 1 ≤ h →
      max w h ≤ 2 ^ GetMaxLevel w h ∧
      (2 ≤ max w h → 2 ^ (GetMaxLevel w h - 1) < max w h) ∧
      (max w h = 1 → GetMaxLevel w h = 0)) ∧
    GetMaxLevel 256 256 = 8 ∧ GetMaxLevel 257 256 = 9 ∧ GetMaxLevel 1 1 = 0 := by
  refine ⟨fun w h hw hh => ?_, by decide, by decide, by decide⟩
  rw [GetMaxLevel, clog2_eq_clog]
  refine ⟨(Nat.le_pow_iff_clog_le (by norm_num)).2 le_rfl, fun h2 => ?_, fun h1 => ?_⟩
  · exact (Nat.pow_lt_iff_lt_clog (by norm_num)).2
      (Nat.sub_lt (Nat.clog_pos (by norm_num) h2) Nat.one_pos)
  · rw [h1]
    exact Nat.clog_of_right_le_one le_rfl 2

/-- Witness for C5 at (256, 256). -/
theorem C5_get_max_level_ceil_log2_witness :
    max 256 256 ≤ 2 ^ GetMaxLevel 256 256 ∧ 2 ^ (GetMaxLevel 256 256 - 1) < max 256 256 :=
  ⟨(C5_get_max_level_ceil_log2.1 256 256 (by decide) (by decide)).1,
   (C5_get_max_level_ceil_log2.1 256 256 (by decide) (by decide)).2.1 (by decide)⟩

/-- C6: `GetLevelGrids` returns the ceiling divisions
`(ceil(width/tileSize), ceil(height/tileSize))` for all positive
arguments — characterized by `cols` being the least cell count covering
the width (`(cols-1)*t < w ≤ cols*t`), symmetrically for rows — and
returns (2,2) at (500,500,256) and (1,1) at (256,256,256). -/
theorem C6_get_level_grids_ceil_div :
    (∀ lvl w h t : Nat, 1 ≤ w → 1 ≤ h → 1 ≤ t →
      w ≤ (GetLevelGrids lvl w h t).1 * t ∧ ((GetLevelGrids lvl w h t).1 - 1) * t < w ∧
      h ≤ (GetLevelGrids lvl w h t).2 * t ∧ ((GetLevelGrids lvl w h t).2 - 1) * t < h) ∧
    GetLevelGrids 9 500 500 256 = (2, 2) ∧ GetLevelGrids 8 256 256 256 = (1, 1) := by
  refine ⟨fun lvl w h t hw hh ht => ?_, by decide, by decide⟩
  obtain ⟨hw1, hw2, -⟩ := ceilDiv_spec w t hw ht
  obtain ⟨hh1, hh2, -⟩ := ceilDiv_spec h t hh ht
  exact ⟨hw1, hw2, hh1, hh2⟩

/-- A level at least one tile wide and high: 512x512, tileSize=256,
overlap=1. -/
def optBig : Opt :=
  { DirPath := "out", Format := "jpeg", Overlap := 1, TileSize := 256, Width := 512, Height := 512 }

/-- C3 counterexample: the claim asserts the core regions partition the
canvas for every level dimensions with `overlap < tileSize`.  At
width=height=200, tileSize=256, overlap=1 the grid is a single tile
whose rectangle is the unclamped `[0,257)x[0,257)`; its core region
(overlap trimmed as added) is `[0,256)x[0,256)`, so the core-area sum is
65536, not `width*height = 40000`. -/
theorem C3_core_partition_fails_narrow_canvas :
    (∑ c ∈ Finset.range
        (GetLevelGrids 9 optNarrow.Width optNarrow.Height optNarrow.TileSize).1,
      ∑ r ∈ Finset.range
        (GetLevelGrids 9 optNarrow.Width optNarrow.Height optNarrow.TileSize).2,
        area (coreRect
          (ComputeTileRect optNarrow c r
            (GetLevelGrids 9 optNarrow.Width optNarrow.Height optNarrow.TileSize).1
            (GetLevelGrids 9 optNarrow.Width optNarrow.Height optNarrow.TileSize).2)
          c r
          (GetLevelGrids 9 optNarrow.Width optNarrow.Height optNarrow.TileSize).1
          (GetLevelGrids 9 optNarrow.Width optNarrow.Height optNarrow.TileSize).2
          optNarrow.Overlap))
      ≠ (optNarrow.Width : Int) * (optNarrow.Height : Int) := by
  decide

/-- C3 amended: for every level whose dimensions are at least one tile
in each direction (`tileSize ≤ width` and `tileSize ≤ height`, with
`overlap < tileSize` and dimensions within the exactly-representable
range), the core regions of the rectangles `ComputeTileRect` produces
over the `GetLevelGrids` grid partition the canvas exactly: every pixel
lies in exactly one core region, and the core areas sum to
`width * height`. -/
theorem C3_core_partition_amended (opt : Opt) (lvl cols rows : Nat)
    (ho : opt.Overlap < opt.TileSize) (hTW : opt.TileSize ≤ opt.Width)
    (hTH : opt.TileSize ≤ opt.Height)
    (hWb : opt.Width ≤ 2 ^ 60) (hHb : opt.Height ≤ 2 ^ 60)
    (hcols : cols = (GetLevelGrids lvl opt.Width opt.Height opt.TileSize).1)
    (hrows : rows = (GetLevelGrids lvl opt.Width opt.Height opt.TileSize).2) :
    (∀ x y : Nat, x < opt.Width → y < opt.Height →
      ∃! p : Nat × Nat, p.1 < cols ∧ p.2 < rows ∧
        memRect (coreRect (ComputeTileRect opt p.1 p.2 cols rows) p.1 p.2 cols rows
          opt.Overlap) (x : Int) (y : Int)) ∧
    (∑ c ∈ Finset.range cols, ∑ r ∈ Finset.range rows,
        area (coreRect (ComputeTileRect opt c r cols rows) c r cols rows opt.Overlap))
      = (opt.Width : Int) * (opt.Height : Int) := by
  have ht : 1 ≤ opt.TileSize := by omega
  have hW1 : 1 ≤ opt.Width := le_trans ht hTW
  have hH1 : 1 ≤ opt.Height := le_trans ht hTH
  have hcols' : cols = (opt.Width + opt.TileSize - 1) / opt.TileSize := hcols
  have hrows' : rows = (opt.Height + opt.TileSize - 1) / opt.TileSize := hrows
  obtain ⟨hWle, hWlt, hcols1⟩ := ceilDiv_spec opt.Width opt.TileSize hW1 ht
  obtain ⟨hHle, hHlt, hrows1⟩ := ceilDiv_spec opt.Height opt.TileSize hH1 ht
  rw [← hcols'] at hWle hWlt hcols1
  rw [← hrows'] at hHle hHlt hrows1
  have hcW : ∀ c : Nat, c < cols → c * opt.TileSize < opt.Width := by
    intro c hc
    calc c * opt.TileSize ≤ (cols - 1) * opt.TileSize :=
          Nat.mul_le_mul_right _ (by omega)
      _ < opt.Width := hWlt
  have hrH : ∀ r : Nat, r < rows → r * opt.TileSize < opt.Height := by
    intro r hr
    calc r * opt.TileSize ≤ (rows - 1) * opt.TileSize :=
          Nat.mul_le_mul_right _ (by omega)
      _ < opt.Height := hHlt
  constructor
  · intro x y hx hy
    have hmem : ∀ c r : Nat, c < cols → r < rows →
        (memRect (coreRect (ComputeTileRect opt c r cols rows) c r cols rows opt.Overlap)
            (x : Int) (y : Int) ↔
          (c * opt.TileSize ≤ x ∧ x < min ((c + 1) * opt.TileSize) opt.Width ∧
           r * opt.TileSize ≤ y ∧ y < min ((r + 1) * opt.TileSize) opt.Height)) := by
      intro c r hc hr
      rw [core_eval opt lvl c r cols rows ho hTW hTH hWb hHb hcols hrows hc hr]
      simp only [memRect]
      constructor
      · intro h
        exact_mod_cast h
      · intro h
        exact_mod_cast h
    obtain ⟨cx, ⟨hcxlt, hcx1, hcx2⟩, hcxu⟩ :=
      core_unique_1d opt.TileSize opt.Width ht hW1 x hx
    obtain ⟨cy, ⟨hcylt, hcy1, hcy2⟩, hcyu⟩ :=
      core_unique_1d opt.TileSize opt.Height ht hH1 y hy
    rw [← hcols'] at hcxlt hcxu
    rw [← hrows'] at hcylt hcyu
    refine ⟨(cx, cy),
      ⟨hcxlt, hcylt, (hmem cx cy hcxlt hcylt).2 ⟨hcx1, hcx2, hcy1, hcy2⟩⟩, ?_⟩
    rintro ⟨c', r'⟩ ⟨hc', hr', hm⟩
    obtain ⟨h1, h2, h3, h4⟩ := (hmem c' r' hc' hr').1 hm
    have e1 := hcxu c' ⟨hc', h1, h2⟩
    have e2 := hcyu r' ⟨hr', h3, h4⟩
    simp [Prod.ext_iff, e1, e2]
  · have hsum : (∑ c ∈ Finset.range cols, ∑ r ∈ Finset.range rows,
        area (coreRect (ComputeTileRect opt c r cols rows) c r cols rows opt.Overlap)) =
        ∑ c ∈ Finset.range cols, ∑ r ∈ Finset.range rows,
          (((min ((c + 1) * opt.TileSize) opt.Width - c * opt.TileSize : Nat) : Int) *
           ((min ((r + 1) * opt.TileSize) opt.Height - r * opt.TileSize : Nat) : Int)) := by
      apply Finset.sum_congr rfl
      intro c hc
      apply Finset.sum_congr rfl
      intro r hr
      rw [Finset.mem_range] at hc hr
      rw [core_eval opt lvl c r cols rows ho hTW hTH hWb hHb hcols hrows hc hr, area]
      have hcx : c * opt.TileSize ≤ min ((c + 1) * opt.TileSize) opt.Width :=
        le_min (Nat.mul_le_mul_right _ (Nat.le_succ c)) (le_of_lt (hcW c hc))
      have hcy : r * opt.TileSize ≤ min ((r + 1) * opt.TileSize) opt.Height :=
        le_min (Nat.mul_le_mul_right _ (Nat.le_succ r)) (le_of_lt (hrH r hr))
      rw [Nat.cast_sub hcx, Nat.cast_sub hcy]
    rw [hsum, ← Finset.sum_mul_sum]
    have hmonoW : Monotone (fun c => min (c * opt.TileSize) opt.Width) := by
      intro a b hab
      exact min_le_min (Nat.mul_le_mul_right _ hab) le_rfl
    have hmonoH : Monotone (fun r => min (r * opt.TileSize) opt.Height) := by
      intro a b hab
      exact min_le_min (Nat.mul_le_mul_right _ hab) le_rfl
    have hxsum : (∑ c ∈ Finset.range cols,
        ((min ((c + 1) * opt.TileSize) opt.Width - c * opt.TileSize : Nat) : Int))
          = (opt.Width : Int) := by
      rw [← Nat.cast_sum]
      norm_cast
      have hstep : ∀ c ∈ Finset.range cols,
          min ((c + 1) * opt.TileSize) opt.Width - c * opt.TileSize =
          min ((c + 1) * opt.TileSize) opt.Width - min (c * opt.TileSize) opt.Width := by
        intro c hc
        rw [Finset.mem_range] at hc
        rw [min_eq_left (le_of_lt (hcW c hc))]
      rw [Finset.sum_congr rfl hstep, Finset.sum_range_tsub hmonoW cols]
      show min (cols * opt.TileSize) opt.Width - min (0 * opt.TileSize) opt.Width = opt.Width
      rw [Nat.zero_mul, Nat.min_comm 0, Nat.min_zero, min_eq_right hWle, Nat.sub_zero]
    have hysum : (∑ r ∈ Finset.range rows,
        ((min ((r + 1) * opt.TileSize) opt.Height - r * opt.TileSize : Nat) : Int))
          = (opt.Height : Int) := by
      rw [← Nat.cast_sum]
      norm_cast
      have hstep : ∀ r ∈ Finset.range rows,
          min ((r + 1) * opt.TileSize) opt.Height - r * opt.TileSize =
          min ((r + 1) * opt.TileSize) opt.Height - min (r * opt.TileSize) opt.Height := by
        intro r hr
        rw [Finset.mem_range] at hr
        rw [min_eq_left (le_of_lt (hrH r hr))]
      rw [Finset.sum_congr rfl hstep, Finset.sum_range_tsub hmonoH rows]
      show min (rows * opt.TileSize) opt.Height - min (0 * opt.TileSize) opt.Height = opt.Height
      rw [Nat.zero_mul, Nat.min_comm 0, Nat.min_zero, min_eq_right hHle, Nat.sub_zero]
    rw [hxsum, hysum]

/-- Witness for the amended C3 at 512x512, tileSize=256, overlap=1,
grid 2x2: the core areas sum to the whole canvas. -/
theorem C3_core_partition_amended_witness :
    (∑ c ∈ Finset.range 2, ∑ r ∈ Finset.range 2,
        area (coreRect (ComputeTileRect optBig c r 2 2) c r 2 2 optBig.Overlap))
      = (optBig.Width : Int) * (optBig.Height : Int) :=
  (C3_core_partition_amended optBig 9 2 2 (by decide) (by decide) (by decide)
    (by norm_num [optBig]) (by norm_num [optBig]) (by decide) (by decide)).2

/-- C4: iterating the per-level downsample `(w, h) ↦ (ceil(w/2),
ceil(h/2))` exactly `GetMaxLevel width height` times starting from any
positive original dimensions yields a 1x1 image, so the grid computed
at level 0 (from the fully downsampled dimensions, with any positive
tile size) is a single tile. -/
theorem C4_downsample_reaches_one (W H T : Nat) (hW : 1 ≤ W) (hH : 1 ≤ H) (hT : 1 ≤ T) :
    ceilHalf^[GetMaxLevel W H] W = 1 ∧ ceilHalf^[GetMaxLevel W H] H = 1 ∧
    GetLevelGrids 0 (ceilHalf^[GetMaxLevel W H] W) (ceilHalf^[GetMaxLevel W H] H) T = (1, 1) := by
  have hwi : ceilHalf^[GetMaxLevel W H] W = 1 := by
    apply ceilHalf_iter_eq_one W _ hW
    rw [GetMaxLevel, clog2_eq_clog]
    exact Nat.clog_mono_right 2 (le_max_left W H)
  have hhi : ceilHalf^[GetMaxLevel W H] H = 1 := by
    apply ceilHalf_iter_eq_one H _ hH
    rw [GetMaxLevel, clog2_eq_clog]
    exact Nat.clog_mono_right 2 (le_max_right W H)
  refine ⟨hwi, hhi, ?_⟩
  rw [hwi, hhi, GetLevelGrids]
  have : 1 + T - 1 = T := by omega
  rw [this, Nat.div_self (by omega)]

/-- Witness for C4 at (2, 2, 1). -/
theorem C4_downsample_reaches_one_witness :
    ceilHalf^[GetMaxLevel 2 2] 2 = 1 ∧
    GetLevelGrids 0 (ceilHalf^[GetMaxLevel 2 2] 2) (ceilHalf^[GetMaxLevel 2 2] 2) 1 = (1, 1) :=
  ⟨(C4_downsample_reaches_one 2 2 1 (by decide) (by decide) (by decide)).1,
   (C4_downsample_reaches_one 2 2 1 (by decide) (by decide) (by decide)).2.2⟩

/-- C8: the level walker of `Generate` terminates (the model is a total
structural recursion mirroring the `if level == 0 break` exit of the Go
loop, whose `level >= 0` condition is vacuous for uint) and visits
exactly the levels `GetMaxLevel(width,height)` down to 0: each level
`l ≤ maxLevel` receives exactly one full grid of tile submissions —
planned from the `maxLevel - l` times halved dimensions, and nonempty —
and no level outside that range receives any. -/
theorem C8_generate_visits_all_levels {Img : Type} (m : Img) (opt : Opt)
    (saver : String → List Nat → Option String)
    (encodeJpeg encodePng : Img → Except String (List Nat)) (crop : Img → Rect → Img)
    (thumbnail : Img → Int → Int → Img)
    (hW : 1 ≤ opt.Width) (hH : 1 ≤ opt.Height) (hT : 1 ≤ opt.TileSize) :
    ∀ l : Nat,
      ((Generate m opt saver encodeJpeg encodePng crop thumbnail).log.countP
          (fun rec => rec.level == l)) =
        (if l ≤ GetMaxLevel opt.Width opt.Height then
          gridCount l (ceilHalf^[GetMaxLevel opt.Width opt.Height - l] opt.Width)
            (ceilHalf^[GetMaxLevel opt.Width opt.Height - l] opt.Height) opt.TileSize
        else 0) ∧
      (l ≤ GetMaxLevel opt.Width opt.Height →
        1 ≤ gridCount l (ceilHalf^[GetMaxLevel opt.Width opt.Height - l] opt.Width)
          (ceilHalf^[GetMaxLevel opt.Width opt.Height - l] opt.Height) opt.TileSize) := by
  intro l
  constructor
  · rw [Generate]
    simp only []
    exact generateLoop_countP opt saver encodeJpeg encodePng crop thumbnail l _ _ _ _
  · intro _
    rw [gridCount, GetLevelGrids]
    have h1 := one_le_ceilHalf_iter opt.Width (GetMaxLevel opt.Width opt.Height - l) hW
    have h2 := one_le_ceilHalf_iter opt.Height (GetMaxLevel opt.Width opt.Height - l) hH
    obtain ⟨-, -, hc⟩ := ceilDiv_spec _ opt.TileSize h1 hT
    obtain ⟨-, -, hr⟩ := ceilDiv_spec _ opt.TileSize h2 hT
    exact Nat.one_le_iff_ne_zero.2 (Nat.mul_ne_zero (by omega) (by omega))

/-- Witness for C8 at a 2x2 image with unit tiles: level 1 (the max
level) receives its full 2x2 grid. -/
theorem C8_generate_visits_all_levels_witness :
    ((Generate () optTwo okSaver okEncode okEncode unitCrop unitThumb).log.countP
        (fun rec => rec.level == 1)) =
      (if 1 ≤ GetMaxLevel optTwo.Width optTwo.Height then
        gridCount 1 (ceilHalf^[GetMaxLevel optTwo.Width optTwo.Height - 1] optTwo.Width)
          (ceilHalf^[GetMaxLevel optTwo.Width optTwo.Height - 1] optTwo.Height) optTwo.TileSize
      else 0) :=
  (C8_generate_visits_all_levels () optTwo okSaver okEncode okEncode unitCrop unitThumb
    (by decide) (by decide) (by decide) 1).1

/-- C9 counterexample: the claim states every field of the option record
is unchanged after `Generate` returns. For a 2x2 input, `Generate`
overwrites `opt.Width` (through the pointer, lines 129-130) with 1. -/
theorem C9_generate_mutates_dimensions :
    (Generate () optTwo okSaver okEncode okEncode unitCrop unitThumb).opt.Width = 1 ∧
    optTwo.Width = 2 := by
  refine ⟨by decide, by decide⟩

/-- C9 amended: `Generate` leaves `DirPath`, `Format`, `Overlap` and
`TileSize` (and the saver, which it merely passes along) unchanged, but
overwrites `Width` and `Height` with the fully downsampled dimensions,
which are 1x1 for every positive input; it returns nil. -/
theorem C9_generate_frame_amended {Img : Type} (m : Img) (opt : Opt)
    (saver : String → List Nat → Option String)
    (encodeJpeg encodePng : Img → Except String (List Nat)) (crop : Img → Rect → Img)
    (thumbnail : Img → Int → Int → Img) (hW : 1 ≤ opt.Width) (hH : 1 ≤ opt.Height) :
    (Generate m opt saver encodeJpeg encodePng crop thumbnail).opt.DirPath = opt.DirPath ∧
    (Generate m opt saver encodeJpeg encodePng crop thumbnail).opt.Format = opt.Format ∧
    (Generate m opt saver encodeJpeg encodePng crop thumbnail).opt.Overlap = opt.Overlap ∧
    (Generate m opt saver encodeJpeg encodePng crop thumbnail).opt.TileSize = opt.TileSize ∧
    (Generate m opt saver encodeJpeg encodePng crop thumbnail).opt.Width = 1 ∧
    (Generate m opt saver encodeJpeg encodePng crop thumbnail).opt.Height = 1 ∧
    (Generate m opt saver encodeJpeg encodePng crop thumbnail).err = none := by
  have hdims := generateLoop_final_dims opt saver encodeJpeg encodePng crop thumbnail
    (GetMaxLevel opt.Width opt.Height) opt.Width opt.Height m
  have hmax : GetMaxLevel opt.Width opt.Height = clog2 (max opt.Width opt.Height) := rfl
  refine ⟨rfl, rfl, rfl, rfl, ?_, ?_, rfl⟩
  · show (generateLoop opt saver encodeJpeg encodePng crop thumbnail
      (GetMaxLevel opt.Width opt.Height) opt.Width opt.Height m).2.1 = 1
    rw [hdims.1]
    apply ceilHalf_iter_eq_one _ _ hW
    rw [hmax, clog2_eq_clog]
    exact le_trans (Nat.clog_mono_right 2 (le_max_left _ _)) (Nat.le_succ _)
  · show (generateLoop opt saver encodeJpeg encodePng crop thumbnail
      (GetMaxLevel opt.Width opt.Height) opt.Width opt.Height m).2.2 = 1
    rw [hdims.2]
    apply ceilHalf_iter_eq_one _ _ hH
    rw [hmax, clog2_eq_clog]
    exact le_trans (Nat.clog_mono_right 2 (le_max_right _ _)) (Nat.le_succ _)

/-- Witness for the amended C9 at the 2x2 input. -/
theorem C9_generate_frame_amended_witness :
    (Generate () optTwo okSaver okEncode okEncode unitCrop unitThumb).opt.TileSize
        = optTwo.TileSize ∧
    (Generate () optTwo okSaver okEncode okEncode unitCrop unitThumb).opt.Height = 1 :=
  ⟨(C9_generate_frame_amended () optTwo okSaver okEncode okEncode unitCrop unitThumb
      (by decide) (by decide)).2.2.2.1,
   (C9_generate_frame_amended () optTwo okSaver okEncode okEncode unitCrop unitThumb
      (by decide) (by decide)).2.2.2.2.2.1⟩

/-- Witness for C6 at (500, 500, 256). -/
theorem C6_get_level_grids_ceil_div_witness :
    500 ≤ (GetLevelGrids 9 500 500 256).1 * 256 ∧
    ((GetLevelGrids 9 500 500 256).1 - 1) * 256 < 500 :=
  ⟨(C6_get_level_grids_ceil_div.1 9 500 500 256 (by decide) (by decide) (by decide)).1,
   (C6_get_level_grids_ceil_div.1 9 500 500 256 (by decide) (by decide) (by decide)).2.1⟩

end gdg
